import Mathlib

/-!
# Scheduler client of swan-ng (`mesos/client.go`)

A shallow embedding of `mesos/client.go`: client construction (`NewClient`,
`init`, `Cluster`), the request path (`send`, `Send`, `Subscribe`) and the
event stream goroutine (`watchEvents`) together with the two buffered
channels it writes to.

Conventions of the embedding.
* Go `error` values are their text (`String`); `nil` is `none`.
* Go pointers that may be `nil` are `Option`.
* The network, the protobuf encoder and the state query are inputs.
* A goroutine is a small-step machine; a blocked statement is a step that
  returns `none`.
-/

namespace Mesos

/-! ## Channels -/

/-- Buffered Go channel `make(chan T, cap)`; the head of `buf` is received next. -/
structure Chan (α : Type) where
  cap : Nat
  buf : List α
deriving DecidableEq, Repr

/-- Channel creation, `make(chan T, cap)`: an empty buffer of the given capacity. -/
def Chan.make {α : Type} (cap : Nat) : Chan α := ⟨cap, []⟩

/-- Channel send `ch <- v`: appends when there is room, otherwise blocks (`none`). -/
def Chan.send {α : Type} (ch : Chan α) (v : α) : Option (Chan α) :=
  if ch.buf.length < ch.cap then some { ch with buf := ch.buf ++ [v] } else none

/-- Channel receive `<-ch`: takes the oldest value, blocks (`none`) on an empty buffer. -/
def Chan.recv {α : Type} (ch : Chan α) : Option (α × Chan α) :=
  match ch.buf with
  | [] => none
  | v :: rest => some (v, { ch with buf := rest })

/-! ## Protocol messages -/

/-- Modelled from the spec: `mesos.FrameworkID` is generated protobuf code that is
not under src/. The source builds it as `&mesos.FrameworkID{Value: proto.String(..)}`,
so `Value` is a `*string`. -/
structure FrameworkID where
  Value : Option String
deriving DecidableEq, Repr

/-- Modelled from the spec: the generated getter `GetValue` of `mesos.FrameworkID`
(not under src/): the string behind `Value`, the empty string when it is unset. -/
def FrameworkID.GetValue (m : FrameworkID) : String := m.Value.getD ""

/-- Modelled from the spec: `mesos.FrameworkInfo` is generated protobuf code that is
not under src/; the spec's FrameworkIdentity is {name, capabilities, optional
assigned id}. The source reads only `Id`. -/
structure FrameworkInfo where
  Name : String
  Capabilities : List String
  Id : Option FrameworkID
deriving DecidableEq, Repr

/-- Modelled from the spec: the kinds of `sched.Call` (generated code, not under
src/) that the spec lists: Subscribe, Accept, Decline, Kill, Revive, Acknowledge. -/
inductive Call_Type where
  | SUBSCRIBE | ACCEPT | DECLINE | KILL | REVIVE | ACKNOWLEDGE
deriving DecidableEq, Repr

/-- Modelled from the spec: `sched.Call_Subscribe` (generated code, not under src/),
the payload of a subscribe call: the framework identity. -/
structure Call_Subscribe where
  FrameworkInfo : FrameworkInfo
deriving DecidableEq, Repr

/-- Modelled from the spec: `sched.Call` (generated code, not under src/) with the
three fields the source sets: `FrameworkId`, `Type` and `Subscribe`. -/
structure Call where
  FrameworkId : Option FrameworkID
  Type_ : Option Call_Type
  Subscribe : Option Call_Subscribe
deriving DecidableEq, Repr

/-! ## HTTP -/

/-- An `http.Request` as `send` builds it. -/
structure Request where
  Method : String
  URL : String
  Body : String
  Header : List (String × String)
deriving DecidableEq, Repr

/-- Header assignment `req.Header.Set(key, value)`: replaces the values of `key`. -/
def Request.Set (req : Request) (key value : String) : Request :=
  { req with Header := req.Header.filter (fun kv => kv.1 ≠ key) ++ [(key, value)] }

/-- A response body as an `io.Reader`: the bytes it yields and the error that ends
the read (`none` for a clean end of input). -/
structure Body where
  data : String
  readErr : Option String
deriving DecidableEq, Repr

/-- The call `ioutil.ReadAll(body)`: the bytes read and the error, if any. -/
def ReadAll (b : Body) : String × Option String := (b.data, b.readErr)

/-- An `http.Response`: status code and body. -/
structure Response where
  StatusCode : Int
  Body : Body
deriving DecidableEq, Repr

/-- The world `send` talks to: the protobuf encoder (`proto.Marshal`), the URL
check of `http.NewRequest` and the round trip `c.http.Do`. -/
structure Net where
  Marshal : Call → Except String String
  urlErr : String → Option String
  Do : Request → Except String Response

/-- The call `http.NewRequest(method, url, body)`: fails when the URL does not parse. -/
def NewRequest (net : Net) (method url body : String) : Except String Request :=
  match net.urlErr url with
  | some err => .error err
  | none => .ok { Method := method, URL := url, Body := body, Header := [] }

/-! ## The client -/

/-- The dialer of the client's transport; durations in seconds. -/
structure Dialer where
  Timeout : Nat
  KeepAlive : Nat
deriving DecidableEq, Repr

/-- The struct `Client`. `eventCh` carries `*sched.Event` values: the address of an
event object, or `none` for `nil`. -/
structure Client where
  http : Dialer
  zkPath : String
  framework : FrameworkInfo
  eventCh : Chan (Option Nat)
  errCh : Chan String
  endPoint : String
  cluster : String
deriving DecidableEq, Repr

/-- The value `c.MesosState()` returns on success; the method is not under src/,
its result is an input of `init`. The source reads `Leader` and `Cluster`. -/
structure MesosState where
  Leader : String
  Cluster : String
deriving DecidableEq, Repr

/-- The method `Client.init` (lines 58-76): the updated client and the error returned. -/
def Client.init (stateQuery : Client → Except String MesosState) (c : Client) :
    Client × Option String :=
  match stateQuery c with
  | .error err => (c, some err)
  | .ok state =>
    let l := state.Leader
    if l = "" then (c, some "empty mesos leader")
    else
      let c := { c with endPoint := "http://" ++ l ++ "/api/v1/scheduler" }
      let c := { c with cluster := state.Cluster }
      let c := if c.cluster = "" then { c with cluster := "cluster" } else c
      (c, none)

/-- The struct literal of `NewClient` (lines 35-48); `defaultFramework()` is not
under src/, its result is an input. The fields the literal leaves out are empty. -/
def Client.literal (defaultFramework : FrameworkInfo) (zkPath : String) : Client :=
  { http := { Timeout := 10, KeepAlive := 30 }
    zkPath := zkPath
    framework := defaultFramework
    eventCh := Chan.make 1024
    errCh := Chan.make 1
    endPoint := ""
    cluster := "" }

/-- The constructor `NewClient` (lines 34-55): the client pointer and the error. -/
def NewClient (defaultFramework : FrameworkInfo)
    (stateQuery : Client → Except String MesosState) (zkPath : String) :
    Option Client × Option String :=
  let c : Client := Client.literal defaultFramework zkPath
  match c.init stateQuery with
  | (_, some err) => (none, some err)
  | (c, none) => (some c, none)

/-- The method `Client.Cluster` (lines 79-81), state passing: the client after the
call and the value returned. -/
def Client.Cluster (c : Client) : Client × String := (c, c.cluster)

/-- The method `Client.send` (lines 104-118): marshal, build the POST request, set
the two headers, do the round trip. -/
def Client.send (net : Net) (c : Client) (call : Call) : Except String Response :=
  match net.Marshal call with
  | .error err => .error err
  | .ok bs =>
    match NewRequest net "POST" c.endPoint bs with
    | .error err => .error err
    | .ok req =>
      let req := req.Set "Content-Type" "application/x-protobuf"
      let req := req.Set "Accept" "application/json"
      net.Do req

/-- What a call of `Send` or `Subscribe` did: the error returned, whether it closed
the response body, and the responses it started `watchEvents` goroutines on. -/
structure Outcome where
  err : Option String
  bodyClosed : Bool
  streams : List Response
deriving DecidableEq, Repr

/-- The verb `%d` of `fmt` on an `int`. -/
def fmtInt (n : Int) : String := toString n

/-- The method `Client.Send` (lines 85-102). -/
def Client.Send (net : Net) (c : Client) (call : Call) : Outcome :=
  match c.send net call with
  | .error err => { err := some err, bodyClosed := false, streams := [] }
  | .ok resp =>
    match ReadAll resp.Body with
    | (_, some err) => { err := some err, bodyClosed := true, streams := [] }
    | (bs, none) =>
      let code := resp.StatusCode
      if code ≠ 202 then
        { err := some ("expect 202, got " ++ fmtInt code ++ ": [" ++ bs ++ "]")
          bodyClosed := true, streams := [] }
      else { err := none, bodyClosed := true, streams := [] }

/-- The method `Client.ReSubscribe` (lines 122-126), a stub that returns `nil`. -/
def Client.ReSubscribe (_c : Client) (_call : Call) : Option String := none

/-- The call `Subscribe` builds (lines 132-142). -/
def Client.subscribeCall (c : Client) : Call :=
  let call : Call :=
    { FrameworkId := none
      Type_ := some Call_Type.SUBSCRIBE
      Subscribe := some { FrameworkInfo := c.framework } }
  match c.framework.Id with
  | some id => { call with FrameworkId := some { Value := some id.GetValue } }
  | none => call

/-- The method `Client.Subscribe` (lines 129-158). -/
def Client.Subscribe (net : Net) (c : Client) : Outcome :=
  let call := c.subscribeCall
  match c.send net call with
  | .error err =>
    { err := some ("subscribe to mesos leader [" ++ c.endPoint ++ "] error [" ++ err ++ "]")
      bodyClosed := false, streams := [] }
  | .ok resp =>
    let code := resp.StatusCode
    if code ≠ 200 then
      let bs := (ReadAll resp.Body).1
      { err := some ("subscribe with unexpected response [" ++ fmtInt code ++ "] - [" ++ bs ++ "]")
        bodyClosed := true, streams := [] }
    else { err := none, bodyClosed := false, streams := [resp] }

/-! ## The event stream -/

/-- What one call `dec.Decode(&ev)` (line 175) meets on the response body, for
documents of type `D`. -/
inductive Read (D : Type) where
  /-- A well-formed JSON object that converts: stored into the event, `nil` returned. -/
  | doc (d : D)
  /-- The well-formed document `null`: the pointer `ev` is set to `nil`, `nil` returned. -/
  | null
  /-- A well-formed value of which a part does not convert: what converts is stored
  and the conversion error is returned. -/
  | mismatch (d : D) (err : String)
  /-- A malformed document, a body that ends inside a document, or the end of the
  body: the error is returned and nothing is stored. -/
  | fail (err : String)
deriving DecidableEq, Repr

/-- The part of `encoding/json` and of the generated struct `sched.Event` (neither
under src/) the stream depends on: `zero` is the value `new(sched.Event)` points
to, `unmarshal d e` is the content of an event object holding `e` after the
document `d` has been decoded into it. -/
structure Codec (D E : Type) where
  zero : E
  unmarshal : D → E → E

/-- The event a document represents on its own: the document decoded into a fresh
`new(sched.Event)`. -/
def Codec.eventOf {D E : Type} (codec : Codec D E) (d : D) : E := codec.unmarshal d codec.zero

/-- Where the goroutine `watchEvents` stands. -/
inductive PC where
  /-- Before `err = dec.Decode(&ev)`, line 175. -/
  | decode
  /-- Before `c.eventCh <- ev`, line 182. -/
  | sendEvent
  /-- Before `c.errCh <- err`, line 178. -/
  | sendErr (err : String)
  /-- At `return`, line 179: the error is written, the deferred function of lines
  163-166 with `resp.Body.Close()` has not run yet. -/
  | closing
  /-- Returned; the deferred `resp.Body.Close()` has run. -/
  | done
deriving DecidableEq, Repr

/-- One running `watchEvents` with the channels it shares with the owner.
`heap` is the memory holding the event objects (an address is an index), `ev` the
local pointer variable of line 170, `body` the unread rest of the response body.
`taken` and `errs` are what the owner has received from `eventCh` and `errCh`. -/
structure Stream (D E : Type) where
  body : List (Read D)
  bodyClosed : Bool
  heap : List E
  ev : Option Nat
  pc : PC
  eventCh : Chan (Option Nat)
  errCh : Chan String
  taken : List (Option Nat)
  errs : List String
deriving DecidableEq, Repr

/-- Entry of `Client.watchEvents` (lines 160-172) on a body whose decoder will meet
`reads`: one event object is allocated, `ev` points to it, the channels are the
client's. The loop that follows is `Stream.produce`. -/
def Client.watchEvents {D E : Type} (codec : Codec D E) (c : Client)
    (reads : List (Read D)) : Stream D E :=
  { body := reads
    bodyClosed := false
    heap := [codec.zero]
    ev := some 0
    pc := PC.decode
    eventCh := c.eventCh
    errCh := c.errCh
    taken := []
    errs := [] }

namespace Stream

variable {D E : Type}

/-- Storing a document through `&ev`: into the object `ev` points to when `ev` is
not `nil`, into a newly allocated object (which `ev` then points to) when it is. -/
def store (codec : Codec D E) (s : Stream D E) (d : D) : Stream D E :=
  match s.ev with
  | some a => { s with heap := s.heap.set a (codec.unmarshal d (s.heap.getD a codec.zero)) }
  | none => { s with heap := s.heap ++ [codec.eventOf d], ev := some s.heap.length }

/-- One statement of `watchEvents`: a statement of the loop (lines 174-183) or,
after `return`, the deferred close (lines 163-166); `none` when the statement
blocks or the goroutine has returned. -/
def produce (codec : Codec D E) (s : Stream D E) : Option (Stream D E) :=
  match s.pc with
  | PC.decode =>
    match s.body with
    | [] => none
    | Read.doc d :: rest => some { s.store codec d with body := rest, pc := PC.sendEvent }
    | Read.null :: rest => some { s with body := rest, ev := none, pc := PC.sendEvent }
    | Read.mismatch d err :: rest => some { s.store codec d with body := rest, pc := PC.sendErr err }
    | Read.fail err :: rest => some { s with body := rest, pc := PC.sendErr err }
  | PC.sendEvent =>
    match s.eventCh.send s.ev with
    | none => none
    | some ch => some { s with eventCh := ch, pc := PC.decode }
  | PC.sendErr err =>
    match s.errCh.send err with
    | none => none
    | some ch => some { s with errCh := ch, pc := PC.closing }
  | PC.closing => some { s with bodyClosed := true, pc := PC.done }
  | PC.done => none

/-- The owner receives from `eventCh`. -/
def recvEvent (s : Stream D E) : Option (Stream D E) :=
  match s.eventCh.recv with
  | none => none
  | some (p, ch) => some { s with eventCh := ch, taken := s.taken ++ [p] }

/-- The owner receives from `errCh`. -/
def recvErr (s : Stream D E) : Option (Stream D E) :=
  match s.errCh.recv with
  | none => none
  | some (e, ch) => some { s with errCh := ch, errs := s.errs ++ [e] }

end Stream

/-- The moves of the system: a statement of the stream, or a receive of the owner. -/
inductive Action where
  | producer
  | recvEvent
  | recvErr
deriving DecidableEq, Repr

namespace Stream

variable {D E : Type}

/-- The step function of the system; `none` when the move is disabled. -/
def step (codec : Codec D E) (a : Action) (s : Stream D E) : Option (Stream D E) :=
  match a with
  | Action.producer => s.produce codec
  | Action.recvEvent => s.recvEvent
  | Action.recvErr => s.recvErr

/-- A schedule run from a state: `none` when one of its moves is disabled. -/
def run (codec : Codec D E) : List Action → Stream D E → Option (Stream D E)
  | [], s => some s
  | a :: rest, s => (s.step codec a).bind (run codec rest)

/-- The event a pointer taken from the queue shows in the current memory. -/
def deref (s : Stream D E) (p : Option Nat) : Option E := p.bind (fun a => s.heap.get? a)

/-- The events the owner has taken followed by those still queued, as the current
memory shows them. -/
def view (s : Stream D E) : List (Option E) := (s.taken ++ s.eventCh.buf).map s.deref

end Stream

/-! ## A sample event layout -/

/-- Modelled from the spec: kinds of `sched.Event` (generated code, not under src/)
that the spec lists: Subscribed, Offers, Update, Failure, Error, Heartbeat. -/
inductive Event_Type where
  | SUBSCRIBED | OFFERS | UPDATE | FAILURE | ERROR | HEARTBEAT
deriving DecidableEq, Repr

/-- Modelled from the spec: two fields of `sched.Event` (generated code, not under
src/): the kind, and the framework id carried by a Subscribed event. Both are
pointers in the generated struct. -/
structure Event where
  Type_ : Option Event_Type
  Subscribed : Option String
deriving DecidableEq, Repr

/-- A JSON object for an event: for each key, the value when the key is present. -/
structure EventDoc where
  type_ : Option Event_Type
  subscribed : Option String
deriving DecidableEq, Repr

/-- Decoding of a JSON object into an existing struct by `encoding/json`: a key
that is present overwrites its field, a field whose key is absent keeps its value. -/
def sampleCodec : Codec EventDoc Event where
  zero := { Type_ := none, Subscribed := none }
  unmarshal d e :=
    { Type_ := match d.type_ with
        | some t => some t
        | none => e.Type_
      Subscribed := match d.subscribed with
        | some v => some v
        | none => e.Subscribed }

/-- The document `{"type":"SUBSCRIBED","subscribed":{"framework_id":{"value":"fw-1"}}}`. -/
def subscribedDoc : EventDoc := { type_ := some Event_Type.SUBSCRIBED, subscribed := some "fw-1" }

/-- The document `{"type":"HEARTBEAT"}`. -/
def heartbeatDoc : EventDoc := { type_ := some Event_Type.HEARTBEAT, subscribed := none }

/-- The document `{"type":"OFFERS"}`. -/
def offersDoc : EventDoc := { type_ := some Event_Type.OFFERS, subscribed := none }

/-- A client as `NewClient` leaves it for the state document
`{"leader":"master1:5050","cluster":"prod"}`. -/
def sampleClient : Client :=
  { http := { Timeout := 10, KeepAlive := 30 }
    zkPath := "zk"
    framework := { Name := "swan", Capabilities := [], Id := none }
    eventCh := Chan.make 1024
    errCh := Chan.make 1
    endPoint := "http://master1:5050/api/v1/scheduler"
    cluster := "prod" }

/-- The framework identity before registration: no id. -/
def sampleFramework : FrameworkInfo := { Name := "swan", Capabilities := [], Id := none }

/-- A state query answering `{"leader":"master1:5050","cluster":"prod"}`. -/
def prodQuery : Client → Except String MesosState :=
  fun _ => Except.ok { Leader := "master1:5050", Cluster := "prod" }

/-- A state query answering `{"leader":"master1:5050"}`, a document without `cluster`. -/
def bareQuery : Client → Except String MesosState :=
  fun _ => Except.ok { Leader := "master1:5050", Cluster := "" }

/-- A network whose server answers every request with the given response. -/
def answering (resp : Response) : Net :=
  { Marshal := fun _ => Except.ok ""
    urlErr := fun _ => none
    Do := fun _ => Except.ok resp }

/-- A response with status 202 whose body breaks while it is read. -/
def acceptedBroken : Response :=
  { StatusCode := 202, Body := { data := "", readErr := some "unexpected EOF" } }

/-- A response with status 503 and the body `master is not the leader`. -/
def unavailable : Response :=
  { StatusCode := 503, Body := { data := "master is not the leader", readErr := none } }

/-- A response with status 200 and an open body. -/
def streaming : Response :=
  { StatusCode := 200, Body := { data := "", readErr := none } }

/-- A framework identity that was assigned the id `fw-1`. -/
def registeredFramework : FrameworkInfo :=
  { Name := "swan", Capabilities := [], Id := some { Value := some "fw-1" } }

/-- A call of kind REVIVE without payload. -/
def reviveCall : Call := { FrameworkId := none, Type_ := some Call_Type.REVIVE, Subscribe := none }

/-! ## Observables of a stream -/

/-- Whether a read is a well-formed document that `Decode` accepts. -/
def Read.ok {D : Type} : Read D → Bool
  | Read.doc _ => true
  | Read.null => true
  | Read.mismatch _ _ => false
  | Read.fail _ => false

/-- The error `Decode` returns on a read, `none` when it returns `nil`. -/
def Read.err {D : Type} : Read D → Option String
  | Read.doc _ => none
  | Read.null => none
  | Read.mismatch _ err => some err
  | Read.fail err => some err

namespace Stream

variable {D E : Type}

/-- The number of sends on `eventCh` the stream has completed, for a stream that
started on an empty queue: what the owner took and what is still queued. -/
def sent (s : Stream D E) : Nat := s.taken.length + s.eventCh.buf.length

/-- The errors written to `errCh`, for a stream that started on an empty slot:
what the owner took and what is still in the slot. -/
def written (s : Stream D E) : List String := s.errs ++ s.errCh.buf

/-- Where a stream stands on a body `pre ++ bad :: rest` whose reads `pre` decode
and whose read `bad` fails with `err`: at each program point, the unread body,
the sends completed, the errors written and whether the body is closed. -/
def FailureInv (pre : List (Read D)) (bad : Read D) (rest : List (Read D)) (err : String)
    (s : Stream D E) : Prop :=
  match s.pc with
  | PC.decode =>
    s.body = pre.drop s.sent ++ bad :: rest ∧ s.sent ≤ pre.length ∧ s.written = [] ∧
      s.bodyClosed = false
  | PC.sendEvent =>
    s.body = pre.drop (s.sent + 1) ++ bad :: rest ∧ s.sent < pre.length ∧ s.written = [] ∧
      s.bodyClosed = false
  | PC.sendErr e =>
    e = err ∧ s.body = rest ∧ s.sent = pre.length ∧ s.written = [] ∧ s.bodyClosed = false
  | PC.closing =>
    s.body = rest ∧ s.sent = pre.length ∧ s.written = [err] ∧ s.bodyClosed = false
  | PC.done =>
    s.body = rest ∧ s.sent = pre.length ∧ s.written = [err] ∧ s.bodyClosed = true

end Stream

/-- The schedule on which the stream runs alone through `k` documents and a
failing read: two statements a document, three for the failure (the read, the
write of the error, the deferred close); the owner receives nothing. -/
def alone : Nat → List Action
  | 0 => [Action.producer, Action.producer, Action.producer]
  | k + 1 => Action.producer :: Action.producer :: alone k

/-- The schedule on which the owner takes every event as soon as it is queued,
through `k` documents and a failing read. -/
def drained : Nat → List Action
  | 0 => [Action.producer, Action.producer, Action.producer]
  | k + 1 => Action.producer :: Action.producer :: Action.recvEvent :: drained k

/-- The schedule on which the stream runs alone through `k` documents. -/
def solo : Nat → List Action
  | 0 => []
  | k + 1 => Action.producer :: Action.producer :: solo k

/-- A client whose error slot still holds the error `connection reset` of an
earlier stream. -/
def heldClient : Client := { sampleClient with errCh := { cap := 1, buf := ["connection reset"] } }

/-- A stream of `heldClient` that has met the failing read `unexpected EOF` and
stands before `c.errCh <- err`. -/
def heldStream : Stream EventDoc Event :=
  { body := []
    bodyClosed := false
    heap := [sampleCodec.zero]
    ev := some 0
    pc := PC.sendErr "unexpected EOF"
    eventCh := Chan.make 1024
    errCh := { cap := 1, buf := ["connection reset"] }
    taken := []
    errs := [] }

/-! ## Construction, `Send` and `Subscribe` -/

/-- The result of `NewClient` when the state query fails. -/
theorem NewClient_of_error (fw : FrameworkInfo) (q : Client → Except String MesosState)
    (zk : String) (e : String) (hq : q (Client.literal fw zk) = Except.error e) :
    NewClient fw q zk = (none, some e) := by
  simp [NewClient, Client.init, hq]

/-- The result of `NewClient` when the state query returns an empty leader. -/
theorem NewClient_of_empty (fw : FrameworkInfo) (q : Client → Except String MesosState)
    (zk : String) (st : MesosState) (hq : q (Client.literal fw zk) = Except.ok st)
    (hl : st.Leader = "") :
    NewClient fw q zk = (none, some "empty mesos leader") := by
  simp [NewClient, Client.init, hq, hl]

/-- The result of `NewClient` when the state query returns a leader. -/
theorem NewClient_of_leader (fw : FrameworkInfo) (q : Client → Except String MesosState)
    (zk : String) (st : MesosState) (hq : q (Client.literal fw zk) = Except.ok st)
    (hl : st.Leader ≠ "") :
    NewClient fw q zk =
      (some { Client.literal fw zk with
          endPoint := "http://" ++ st.Leader ++ "/api/v1/scheduler"
          cluster := if st.Cluster = "" then "cluster" else st.Cluster }, none) := by
  by_cases hc : st.Cluster = "" <;> simp [NewClient, Client.init, hq, hl, hc]

/-- C5. Construction fails exactly when the state query fails or the leader it
returns is the empty string; when it fails `NewClient` returns no client together
with the error, and otherwise it returns a client and no error. -/
theorem NewClient_fails_exactly (fw : FrameworkInfo)
    (q : Client → Except String MesosState) (zk : String) :
    ((NewClient fw q zk).2 ≠ none ↔
      ((∃ e, q (Client.literal fw zk) = Except.error e) ∨
        (∃ st, q (Client.literal fw zk) = Except.ok st ∧ st.Leader = ""))) ∧
    ((NewClient fw q zk).2 ≠ none → (NewClient fw q zk).1 = none) ∧
    ((NewClient fw q zk).2 = none → (NewClient fw q zk).1 ≠ none) := by
  cases hq : q (Client.literal fw zk) with
  | error e => simp [NewClient_of_error fw q zk e hq]
  | ok st =>
    by_cases hl : st.Leader = ""
    · simp [NewClient_of_empty fw q zk st hq hl, hl]
    · simp [NewClient_of_leader fw q zk st hq hl, hl]

/-- C5, at concrete inputs: a failing query and an empty leader give no client and
an error, a leader gives a client and no error. -/
theorem NewClient_fails_exactly_witness :
    NewClient sampleFramework (fun _ => Except.error "connection refused") "zk" =
      (none, some "connection refused") ∧
    NewClient sampleFramework (fun _ => Except.ok { Leader := "", Cluster := "x" }) "zk" =
      (none, some "empty mesos leader") ∧
    (NewClient sampleFramework prodQuery "zk").2 = none ∧
    (NewClient sampleFramework prodQuery "zk").1 ≠ none :=
  ⟨by decide, by decide, by decide,
    (NewClient_fails_exactly sampleFramework prodQuery "zk").2.2 (by decide)⟩

/-- C6. When the state query returns a document whose leader is a non-empty
string, `init` succeeds on every client, `NewClient` returns a client, and the
endpoint is exactly `http://` followed by the leader and `/api/v1/scheduler`,
which is not empty. -/
theorem init_endPoint (fw : FrameworkInfo) (q : Client → Except String MesosState)
    (zk : String) (c0 : Client) (st : MesosState)
    (hq : ∀ c, q c = Except.ok st) (hl : st.Leader ≠ "") :
    (c0.init q).2 = none ∧
    (c0.init q).1.endPoint = "http://" ++ st.Leader ++ "/api/v1/scheduler" ∧
    (∃ c, NewClient fw q zk = (some c, none) ∧
      c.endPoint = "http://" ++ st.Leader ++ "/api/v1/scheduler" ∧ c.endPoint ≠ "") := by
  have hne : "http://" ++ st.Leader ++ "/api/v1/scheduler" ≠ "" := by
    intro h
    have hlen := congrArg String.length h
    simp [String.length_append] at hlen
    exact absurd hlen.1.1 (by decide)
  refine ⟨?_, ?_, ?_⟩
  · by_cases hc : st.Cluster = "" <;> simp [Client.init, hq, hl, hc]
  · by_cases hc : st.Cluster = "" <;> simp [Client.init, hq, hl, hc]
  · exact ⟨_, NewClient_of_leader fw q zk st (hq _) hl, rfl, hne⟩

/-- C6, at the leader `master1:5050`: the endpoint is
`http://master1:5050/api/v1/scheduler`. -/
theorem init_endPoint_witness :
    ∃ c, NewClient sampleFramework prodQuery "zk" = (some c, none) ∧
      c.endPoint = "http://master1:5050/api/v1/scheduler" ∧ c.endPoint ≠ "" :=
  (init_endPoint sampleFramework prodQuery "zk" (Client.literal sampleFramework "zk")
    { Leader := "master1:5050", Cluster := "prod" } (fun _ => rfl) (by decide)).2.2

/-- C7. For a client that `NewClient` returned, the state query had answered with
a document, `Cluster()` returns that document's cluster when it is not empty and
the literal `cluster` when it is empty, and `Cluster()` leaves the client as it was. -/
theorem Cluster_value (fw : FrameworkInfo) (q : Client → Except String MesosState)
    (zk : String) (c : Client) (h : NewClient fw q zk = (some c, none)) :
    ∃ st, q (Client.literal fw zk) = Except.ok st ∧
      (st.Cluster ≠ "" → c.Cluster.2 = st.Cluster) ∧
      (st.Cluster = "" → c.Cluster.2 = "cluster") ∧
      c.Cluster.1 = c := by
  cases hq : q (Client.literal fw zk) with
  | error e => simp [NewClient_of_error fw q zk e hq] at h
  | ok st =>
    refine ⟨st, rfl, ?_⟩
    by_cases hl : st.Leader = ""
    · simp [NewClient_of_empty fw q zk st hq hl] at h
    · rw [NewClient_of_leader fw q zk st hq hl] at h
      have hc : c = _ := (Option.some.inj (congrArg Prod.fst h)).symm
      subst hc
      refine ⟨?_, ?_, rfl⟩
      · intro hne
        simp [Client.Cluster, hne]
      · intro he
        simp [Client.Cluster, he]

/-- C7, at the documents `{"leader":"master1:5050","cluster":"prod"}` and
`{"leader":"master1:5050"}`: the cluster names are `prod` and `cluster`. -/
theorem Cluster_value_witness :
    (∃ st, prodQuery (Client.literal sampleFramework "zk") = Except.ok st ∧
      (st.Cluster ≠ "" → sampleClient.Cluster.2 = st.Cluster) ∧
      (st.Cluster = "" → sampleClient.Cluster.2 = "cluster") ∧
      sampleClient.Cluster.1 = sampleClient) ∧
    sampleClient.Cluster.2 = "prod" ∧
    (NewClient sampleFramework bareQuery "zk").1.map (fun c => c.Cluster.2) = some "cluster" :=
  ⟨Cluster_value sampleFramework prodQuery "zk" sampleClient (by decide), by decide, by decide⟩

/-- What `Send` does with a response, by its body and status. -/
theorem Send_of_response (net : Net) (c : Client) (call : Call) (resp : Response)
    (h : c.send net call = Except.ok resp) :
    c.Send net call =
      match resp.Body.readErr with
      | some err => { err := some err, bodyClosed := true, streams := [] }
      | none =>
        if resp.StatusCode ≠ 202 then
          { err := some ("expect 202, got " ++ fmtInt resp.StatusCode ++ ": [" ++
              resp.Body.data ++ "]")
            bodyClosed := true, streams := [] }
        else { err := none, bodyClosed := true, streams := [] } := by
  unfold Client.Send
  rw [h]
  cases hr : resp.Body.readErr <;> simp [ReadAll, hr]

/-- C2, as stated, fails: the server answers `Send` with status 202, the body
breaks while it is read, and `Send` returns the read error. -/
theorem Send_accepted_broken_body :
    sampleClient.send (answering acceptedBroken) reviveCall = Except.ok acceptedBroken ∧
    acceptedBroken.StatusCode = 202 ∧
    (sampleClient.Send (answering acceptedBroken) reviveCall).err = some "unexpected EOF" :=
  ⟨rfl, rfl, rfl⟩

/-- C2, amended. Whenever the server answers the request of `Send` and the
response body is read without error, status 202 makes `Send` return success and
any other status makes it return the error `expect 202, got <code>: [<body>]`
with that status code and the body verbatim; when reading the body fails, `Send`
returns the read error whatever the status. In each case the body is closed. -/
theorem Send_status (net : Net) (c : Client) (call : Call) (resp : Response)
    (h : c.send net call = Except.ok resp) :
    (resp.Body.readErr = none → resp.StatusCode = 202 → (c.Send net call).err = none) ∧
    (resp.Body.readErr = none → resp.StatusCode ≠ 202 →
      (c.Send net call).err =
        some ("expect 202, got " ++ fmtInt resp.StatusCode ++ ": [" ++ resp.Body.data ++ "]")) ∧
    (∀ e, resp.Body.readErr = some e → (c.Send net call).err = some e) ∧
    (c.Send net call).bodyClosed = true := by
  rw [Send_of_response net c call resp h]
  refine ⟨?_, ?_, ?_, ?_⟩
  · intro hr hs
    simp [hr, hs]
  · intro hr hs
    simp [hr, hs]
  · intro e hr
    simp [hr]
  · cases hr : resp.Body.readErr with
    | some e => simp
    | none => by_cases hs : resp.StatusCode = 202 <;> simp [hs]

/-- C2 amended, at a 503 response with body `master is not the leader`. -/
theorem Send_status_witness :
    (sampleClient.Send (answering unavailable) reviveCall).err =
      some "expect 202, got 503: [master is not the leader]" :=
  (Send_status (answering unavailable) sampleClient reviveCall unavailable rfl).2.1 rfl
    (by decide)

/-- C3. The call `Subscribe` builds has kind SUBSCRIBE and embeds the framework
identity of the client; without an id in the identity the framework-id field of
the call is absent, with an id it is present and holds exactly the value of
that id. -/
theorem Subscribe_call (c : Client) :
    c.subscribeCall.Type_ = some Call_Type.SUBSCRIBE ∧
    c.subscribeCall.Subscribe = some { FrameworkInfo := c.framework } ∧
    (c.framework.Id = none → c.subscribeCall.FrameworkId = none) ∧
    (∀ id, c.framework.Id = some id →
      ∃ fid, c.subscribeCall.FrameworkId = some fid ∧ fid.Value = some id.GetValue ∧
        fid.GetValue = id.GetValue) := by
  unfold Client.subscribeCall
  cases hid : c.framework.Id with
  | none => simp
  | some id => simp [FrameworkID.GetValue]

/-- C3, at a client without an id and at a client with the id `fw-1`. -/
theorem Subscribe_call_witness :
    sampleClient.subscribeCall.FrameworkId = none ∧
    ({ sampleClient with framework := registeredFramework } : Client).subscribeCall.FrameworkId =
      some { Value := some "fw-1" } ∧
    sampleClient.subscribeCall.Type_ = some Call_Type.SUBSCRIBE :=
  ⟨(Subscribe_call sampleClient).2.2.1 rfl, by decide, (Subscribe_call sampleClient).1⟩

/-- C4. For every response to the subscribe request, `Subscribe` returns success
and starts exactly one event stream, over that response, if and only if the
status is 200; for any other status it starts no event stream, closes the
response body, and returns the error
`subscribe with unexpected response [<code>] - [<body>]` with the status code
and the body text. -/
theorem Subscribe_status (net : Net) (c : Client) (resp : Response)
    (h : c.send net c.subscribeCall = Except.ok resp) :
    (((c.Subscribe net).err = none ∧ (c.Subscribe net).streams = [resp]) ↔
      resp.StatusCode = 200) ∧
    (resp.StatusCode ≠ 200 →
      (c.Subscribe net).streams = [] ∧ (c.Subscribe net).bodyClosed = true ∧
      (c.Subscribe net).err =
        some ("subscribe with unexpected response [" ++ fmtInt resp.StatusCode ++ "] - [" ++
          resp.Body.data ++ "]")) := by
  unfold Client.Subscribe
  simp only [h]
  by_cases hs : resp.StatusCode = 200 <;> simp [hs, ReadAll]

/-- C4, at a 200 response and at a 503 response. -/
theorem Subscribe_status_witness :
    (sampleClient.Subscribe (answering streaming)).err = none ∧
    (sampleClient.Subscribe (answering streaming)).streams = [streaming] ∧
    (sampleClient.Subscribe (answering unavailable)) =
      { err := some "subscribe with unexpected response [503] - [master is not the leader]"
        bodyClosed := true, streams := [] } :=
  ⟨((Subscribe_status (answering streaming) sampleClient streaming rfl).1.2 rfl).1,
    ((Subscribe_status (answering streaming) sampleClient streaming rfl).1.2 rfl).2,
    by decide⟩

/-! ## The event stream -/

namespace Stream

variable {D E : Type}

/-- A property kept by every enabled move is kept by every schedule. -/
theorem run_induction (codec : Codec D E) (P : Stream D E → Prop)
    (hstep : ∀ a s s', P s → s.step codec a = some s' → P s') :
    ∀ (acts : List Action) (s s' : Stream D E), P s → s.run codec acts = some s' → P s' := by
  intro acts
  induction acts with
  | nil =>
    intro s s' hP h
    simp [run] at h
    exact h ▸ hP
  | cons a rest ih =>
    intro s s' hP h
    simp only [run] at h
    cases hs : s.step codec a with
    | none => simp [hs] at h
    | some s1 =>
      simp [hs] at h
      exact ih s1 s' (hstep a s s1 hP hs) h

/-- Storing a document leaves the queue as it is. -/
theorem store_eventCh (codec : Codec D E) (s : Stream D E) (d : D) :
    (s.store codec d).eventCh = s.eventCh := by
  unfold store
  cases s.ev <;> rfl

/-- Storing a document leaves the error slot as it is. -/
theorem store_errCh (codec : Codec D E) (s : Stream D E) (d : D) :
    (s.store codec d).errCh = s.errCh := by
  unfold store
  cases s.ev <;> rfl

/-- Storing a document leaves what the owner took as it is. -/
theorem store_taken (codec : Codec D E) (s : Stream D E) (d : D) :
    (s.store codec d).taken = s.taken := by
  unfold store
  cases s.ev <;> rfl

/-- Storing a document leaves the errors the owner took as they are. -/
theorem store_errs (codec : Codec D E) (s : Stream D E) (d : D) :
    (s.store codec d).errs = s.errs := by
  unfold store
  cases s.ev <;> rfl

/-- Storing a document does not close the body. -/
theorem store_bodyClosed (codec : Codec D E) (s : Stream D E) (d : D) :
    (s.store codec d).bodyClosed = s.bodyClosed := by
  unfold store
  cases s.ev <;> rfl

/-- The moves keep `FailureInv`. -/
theorem FailureInv_step (codec : Codec D E) (pre : List (Read D)) (bad : Read D)
    (rest : List (Read D)) (err : String)
    (hpre : ∀ r ∈ pre, r.ok = true) (hbad : bad.err = some err)
    (a : Action) (s s' : Stream D E)
    (hinv : FailureInv pre bad rest err s) (h : s.step codec a = some s') :
    FailureInv pre bad rest err s' := by
  obtain ⟨body, closed, heap, ev, pc, eventCh, errCh, taken, errs⟩ := s
  cases a with
  | recvEvent =>
    simp only [step, recvEvent, Chan.recv] at h
    cases hb : eventCh.buf with
    | nil => simp [hb] at h
    | cons p tl =>
      simp [hb] at h
      subst h
      cases pc <;>
        simpa [FailureInv, sent, written, hb, Nat.add_assoc, Nat.add_comm 1] using hinv
  | recvErr =>
    simp only [step, recvErr, Chan.recv] at h
    cases hb : errCh.buf with
    | nil => simp [hb] at h
    | cons p tl =>
      simp [hb] at h
      subst h
      cases pc with
      | decode => simp [FailureInv, written, hb] at hinv
      | sendEvent => simp [FailureInv, written, hb] at hinv
      | sendErr e => simp [FailureInv, written, hb] at hinv
      | closing => simpa [FailureInv, sent, written, hb] using hinv
      | done => simpa [FailureInv, sent, written, hb] using hinv
  | producer =>
    simp only [step, produce] at h
    cases pc with
    | decode =>
      simp only [FailureInv, sent, written] at hinv
      obtain ⟨hb, hle, hw, hc⟩ := hinv
      simp only at h hb
      subst hb
      rcases Nat.lt_or_eq_of_le hle with hlt | heq
      · rw [List.drop_eq_getElem_cons hlt] at h
        have hok := hpre _ (List.getElem_mem hlt)
        generalize pre[taken.length + eventCh.buf.length] = r at h hok
        cases r with
        | doc d =>
          simp only [List.cons_append, Option.some.injEq] at h
          subst h
          simp only [FailureInv, sent, written, store_eventCh, store_errCh, store_taken, store_errs,
            store_bodyClosed]
          exact ⟨trivial, hlt, hw, hc⟩
        | null =>
          simp only [List.cons_append, Option.some.injEq] at h
          subst h
          simp only [FailureInv, sent, written]
          exact ⟨trivial, hlt, hw, hc⟩
        | mismatch d e => simp [Read.ok] at hok
        | fail e => simp [Read.ok] at hok
      · rw [heq, List.drop_length, List.nil_append] at h
        cases bad with
        | doc d => simp [Read.err] at hbad
        | null => simp [Read.err] at hbad
        | mismatch d e =>
          simp only [Read.err, Option.some.injEq] at hbad
          simp only [Option.some.injEq] at h
          subst h
          simp only [FailureInv, sent, written, store_eventCh, store_errCh, store_taken, store_errs,
            store_bodyClosed]
          exact ⟨hbad, trivial, heq, hw, hc⟩
        | fail e =>
          simp only [Read.err, Option.some.injEq] at hbad
          simp only [Option.some.injEq] at h
          subst h
          simp only [FailureInv, sent, written]
          exact ⟨hbad, trivial, heq, hw, hc⟩
    | sendEvent =>
      simp only [FailureInv, sent, written] at hinv
      obtain ⟨hb, hlt, hw, hc⟩ := hinv
      simp only [Chan.send] at h
      by_cases hroom : eventCh.buf.length < eventCh.cap
      · simp only [hroom, if_true, Option.some.injEq] at h
        subst h
        simp only [FailureInv, sent, written, List.length_append, List.length_singleton]
        exact ⟨by simpa [Nat.add_assoc] using hb, by omega, hw, hc⟩
      · simp [hroom] at h
    | sendErr e =>
      simp only [FailureInv, sent, written] at hinv
      obtain ⟨he, hb, hn, hw, hc⟩ := hinv
      simp only [Chan.send] at h
      by_cases hroom : errCh.buf.length < errCh.cap
      · simp only [hroom, if_true, Option.some.injEq] at h
        subst h
        simp only [FailureInv, sent, written]
        refine ⟨hb, hn, ?_, hc⟩
        rw [← List.append_assoc, hw, he]
        rfl
      · simp [hroom] at h
    | closing =>
      simp only [FailureInv, sent, written] at hinv
      obtain ⟨hb, hn, hw, _⟩ := hinv
      simp only [Option.some.injEq] at h
      subst h
      exact ⟨hb, hn, hw, rfl⟩
    | done => simp at h

/-- The statement `Decode` on a well-formed document: the stream moves on to the
send, the document is consumed, the channels are untouched. -/
theorem produce_decode_ok (codec : Codec D E) (s : Stream D E) (r : Read D)
    (b : List (Read D)) (hpc : s.pc = PC.decode) (hb : s.body = r :: b) (hok : r.ok = true) :
    ∃ s1, s.produce codec = some s1 ∧ s1.pc = PC.sendEvent ∧ s1.body = b ∧
      s1.eventCh = s.eventCh ∧ s1.errCh = s.errCh ∧ s1.bodyClosed = s.bodyClosed ∧
      s1.taken = s.taken ∧ s1.errs = s.errs := by
  unfold produce
  rw [hpc]
  simp only [hb]
  cases r with
  | doc d =>
    exact ⟨_, rfl, rfl, rfl, store_eventCh codec s d, store_errCh codec s d,
      store_bodyClosed codec s d, store_taken codec s d, store_errs codec s d⟩
  | null => exact ⟨_, rfl, rfl, rfl, rfl, rfl, rfl, rfl, rfl⟩
  | mismatch d e => simp [Read.ok] at hok
  | fail e => simp [Read.ok] at hok

/-- The statement `Decode` on a failing read: the stream moves on to the write of
the error, the channels are untouched. -/
theorem produce_decode_bad (codec : Codec D E) (s : Stream D E) (r : Read D)
    (b : List (Read D)) (err : String) (hpc : s.pc = PC.decode) (hb : s.body = r :: b)
    (hbad : r.err = some err) :
    ∃ s1, s.produce codec = some s1 ∧ s1.pc = PC.sendErr err ∧ s1.body = b ∧
      s1.eventCh = s.eventCh ∧ s1.errCh = s.errCh ∧ s1.bodyClosed = s.bodyClosed ∧
      s1.taken = s.taken ∧ s1.errs = s.errs := by
  unfold produce
  rw [hpc]
  simp only [hb]
  cases r with
  | doc d => simp [Read.err] at hbad
  | null => simp [Read.err] at hbad
  | mismatch d e =>
    simp only [Read.err, Option.some.injEq] at hbad
    subst hbad
    exact ⟨_, rfl, rfl, rfl, store_eventCh codec s d, store_errCh codec s d,
      store_bodyClosed codec s d, store_taken codec s d, store_errs codec s d⟩
  | fail e =>
    simp only [Read.err, Option.some.injEq] at hbad
    subst hbad
    exact ⟨_, rfl, rfl, rfl, rfl, rfl, rfl, rfl, rfl⟩

/-- The statement `c.eventCh <- ev` with room in the queue: the pointer `ev` is
appended and the stream returns to `Decode`. -/
theorem produce_sendEvent (codec : Codec D E) (s : Stream D E)
    (hpc : s.pc = PC.sendEvent) (hroom : s.eventCh.buf.length < s.eventCh.cap) :
    s.produce codec =
      some { s with eventCh := { s.eventCh with buf := s.eventCh.buf ++ [s.ev] }
                    pc := PC.decode } := by
  unfold produce
  rw [hpc]
  simp [Chan.send, hroom]

/-- The statement `c.errCh <- err` with room in the slot: the error is written
and the stream stands at `return`, the body still open. -/
theorem produce_sendErr (codec : Codec D E) (s : Stream D E) (err : String)
    (hpc : s.pc = PC.sendErr err) (hroom : s.errCh.buf.length < s.errCh.cap) :
    s.produce codec =
      some { s with errCh := { s.errCh with buf := s.errCh.buf ++ [err] }
                    pc := PC.closing } := by
  unfold produce
  rw [hpc]
  simp [Chan.send, hroom]

/-- The deferred function at `return`: the body is closed and the stream has
returned; nothing can block it. -/
theorem produce_closing (codec : Codec D E) (s : Stream D E) (hpc : s.pc = PC.closing) :
    s.produce codec = some { s with bodyClosed := true, pc := PC.done } := by
  unfold produce
  rw [hpc]

/-- From the write of the error with room in the slot, two statements end the
stream. -/
theorem produce_sendErr_closing (codec : Codec D E) (s : Stream D E) (err : String)
    (hpc : s.pc = PC.sendErr err) (hroom : s.errCh.buf.length < s.errCh.cap) :
    ∃ s2 s3, s.produce codec = some s2 ∧ s2.produce codec = some s3 ∧ s3.pc = PC.done :=
  ⟨_, _, produce_sendErr codec s err hpc hroom, produce_closing codec _ rfl, rfl⟩

/-- Alone, a stream with room for the documents ahead and for the error runs
through them and returns. -/
theorem alone_terminates (codec : Codec D E) (bad : Read D) (rest : List (Read D))
    (err : String) (hbad : bad.err = some err) :
    ∀ (pre : List (Read D)) (s : Stream D E), s.pc = PC.decode →
      s.body = pre ++ bad :: rest → (∀ r ∈ pre, r.ok = true) →
      s.eventCh.buf.length + pre.length ≤ s.eventCh.cap →
      s.errCh.buf.length < s.errCh.cap →
      ∃ s', s.run codec (alone pre.length) = some s' ∧ s'.pc = PC.done := by
  intro pre
  induction pre with
  | nil =>
    intro s hpc hb _ _ herr
    obtain ⟨s1, h1, hpc1, _, _, he1, _⟩ :=
      produce_decode_bad codec s bad rest err hpc (by simpa using hb) hbad
    obtain ⟨s2, s3, h2, h3, hd⟩ :=
      produce_sendErr_closing codec s1 err hpc1 (by rw [he1]; exact herr)
    exact ⟨s3, by simp [alone, run, step, h1, h2, h3], hd⟩
  | cons r pre ih =>
    intro s hpc hb hok hroom herr
    obtain ⟨s1, h1, hpc1, hb1, hq1, he1, _⟩ :=
      produce_decode_ok codec s r (pre ++ bad :: rest) hpc (by simpa using hb)
        (hok r (List.mem_cons_self r pre))
    have hlen : s1.eventCh.buf.length < s1.eventCh.cap := by
      rw [hq1]
      simp only [List.length_cons] at hroom
      omega
    have h2 := produce_sendEvent codec s1 hpc1 hlen
    obtain ⟨s', hrun, hdone⟩ := ih
      { s1 with eventCh := { s1.eventCh with buf := s1.eventCh.buf ++ [s1.ev] }
                pc := PC.decode }
      rfl hb1 (fun x hx => hok x (List.mem_cons_of_mem r hx))
      (by
        simp only [List.length_append, List.length_cons, List.length_nil] at hroom ⊢
        rw [hq1]
        omega)
      (by rw [he1]; exact herr)
    exact ⟨s', by simp [alone, run, step, h1, h2, hrun], hdone⟩

/-- With an owner that takes every event at once, a stream on an empty queue of
capacity at least one runs through any number of documents and returns. -/
theorem drained_terminates (codec : Codec D E) (bad : Read D) (rest : List (Read D))
    (err : String) (hbad : bad.err = some err) :
    ∀ (pre : List (Read D)) (s : Stream D E), s.pc = PC.decode →
      s.body = pre ++ bad :: rest → (∀ r ∈ pre, r.ok = true) →
      s.eventCh.buf = [] → 0 < s.eventCh.cap →
      s.errCh.buf.length < s.errCh.cap →
      ∃ s', s.run codec (drained pre.length) = some s' ∧ s'.pc = PC.done := by
  intro pre
  induction pre with
  | nil =>
    intro s hpc hb _ _ _ herr
    obtain ⟨s1, h1, hpc1, _, _, he1, _⟩ :=
      produce_decode_bad codec s bad rest err hpc (by simpa using hb) hbad
    obtain ⟨s2, s3, h2, h3, hd⟩ :=
      produce_sendErr_closing codec s1 err hpc1 (by rw [he1]; exact herr)
    exact ⟨s3, by simp [drained, run, step, h1, h2, h3], hd⟩
  | cons r pre ih =>
    intro s hpc hb hok hemp hcap herr
    obtain ⟨s1, h1, hpc1, hb1, hq1, he1, _⟩ :=
      produce_decode_ok codec s r (pre ++ bad :: rest) hpc (by simpa using hb)
        (hok r (List.mem_cons_self r pre))
    have hlen : s1.eventCh.buf.length < s1.eventCh.cap := by
      rw [hq1, hemp]
      exact hcap
    have h2 := produce_sendEvent codec s1 hpc1 hlen
    have hbuf : s1.eventCh.buf = [] := by rw [hq1]; exact hemp
    obtain ⟨s', hrun, hdone⟩ := ih
      { s1 with eventCh := { s1.eventCh with buf := [] }
                pc := PC.decode
                taken := s1.taken ++ [s1.ev] }
      rfl hb1 (fun x hx => hok x (List.mem_cons_of_mem r hx)) rfl
      (by rw [hq1]; exact hcap) (by rw [he1]; exact herr)
    refine ⟨s', ?_, hdone⟩
    simp [drained, run, step, h1, h2, recvEvent, Chan.recv, hbuf, hrun]

/-- The queue never holds more than its capacity, which never changes. -/
theorem eventCh_bounded (codec : Codec D E) (c : Client) (reads : List (Read D))
    (h : c.eventCh.buf.length ≤ c.eventCh.cap) (acts : List Action) (s : Stream D E)
    (hrun : (Client.watchEvents codec c reads).run codec acts = some s) :
    s.eventCh.cap = c.eventCh.cap ∧ s.eventCh.buf.length ≤ c.eventCh.cap := by
  refine run_induction codec
    (fun s => s.eventCh.cap = c.eventCh.cap ∧ s.eventCh.buf.length ≤ c.eventCh.cap)
    ?_ acts _ s ⟨rfl, h⟩ hrun
  intro a s s' hP hs
  obtain ⟨hcap, hlen⟩ := hP
  cases a with
  | recvEvent =>
    simp only [step, recvEvent, Chan.recv] at hs
    cases hb : s.eventCh.buf with
    | nil => simp [hb] at hs
    | cons p tl =>
      simp only [hb, Option.some.injEq] at hs
      subst hs
      simp only [hb, List.length_cons] at hlen
      exact ⟨hcap, by simp only; omega⟩
  | recvErr =>
    simp only [step, recvErr, Chan.recv] at hs
    cases hb : s.errCh.buf with
    | nil => simp [hb] at hs
    | cons p tl =>
      simp only [hb, Option.some.injEq] at hs
      subst hs
      exact ⟨hcap, hlen⟩
  | producer =>
    simp only [step, produce] at hs
    cases hpc : s.pc with
    | decode =>
      simp only [hpc] at hs
      cases hb : s.body with
      | nil => simp [hb] at hs
      | cons r b =>
        simp only [hb] at hs
        cases r <;> simp only [Option.some.injEq] at hs <;> subst hs <;>
          simp only [store_eventCh] <;> exact ⟨hcap, hlen⟩
    | sendEvent =>
      simp only [hpc, Chan.send] at hs
      by_cases hroom : s.eventCh.buf.length < s.eventCh.cap
      · simp only [hroom, if_true, Option.some.injEq] at hs
        subst hs
        simp only [List.length_append, List.length_cons, List.length_nil]
        exact ⟨hcap, by omega⟩
      · simp [hroom] at hs
    | sendErr e =>
      simp only [hpc, Chan.send] at hs
      by_cases hroom : s.errCh.buf.length < s.errCh.cap
      · simp only [hroom, if_true, Option.some.injEq] at hs
        subst hs
        exact ⟨hcap, hlen⟩
      · simp [hroom] at hs
    | closing =>
      simp only [hpc, Option.some.injEq] at hs
      subst hs
      exact ⟨hcap, hlen⟩
    | done => simp [hpc] at hs

/-- The send on the queue blocks exactly when the queue is full. -/
theorem sendEvent_blocked_iff (codec : Codec D E) (s : Stream D E)
    (hpc : s.pc = PC.sendEvent) :
    s.produce codec = none ↔ s.eventCh.cap ≤ s.eventCh.buf.length := by
  unfold produce
  rw [hpc]
  by_cases hroom : s.eventCh.buf.length < s.eventCh.cap
  · simp [Chan.send, hroom]
  · simp [Chan.send, hroom]
    omega

/-- Alone on documents only, the stream queues one and the same pointer for every
document, and the one object behind it holds the documents decoded on top of
each other. -/
theorem solo_shares_object (codec : Codec D E) (tail : List (Read D)) :
    ∀ (docs : List D) (s : Stream D E) (e : E), s.pc = PC.decode → s.ev = some 0 →
      s.heap = [e] → s.body = docs.map Read.doc ++ tail →
      s.eventCh.buf.length + docs.length ≤ s.eventCh.cap →
      ∃ s', s.run codec (solo docs.length) = some s' ∧
        s'.eventCh.buf = s.eventCh.buf ++ List.replicate docs.length (some 0) ∧
        s'.heap = [docs.foldl (fun acc d => codec.unmarshal d acc) e] ∧
        s'.pc = PC.decode ∧ s'.body = tail ∧ s'.taken = s.taken := by
  intro docs
  induction docs with
  | nil =>
    intro s e hpc _ hheap hb _
    exact ⟨s, rfl, by simp, by simpa using hheap, hpc, by simpa using hb, rfl⟩
  | cons d docs ih =>
    intro s e hpc hev hheap hb hroom
    obtain ⟨body, closed, heap, ev, pc, eventCh, errCh, taken, errs⟩ := s
    simp only at hpc hev hheap hb hroom
    subst hpc hev hheap hb
    simp only [List.length_cons] at hroom
    have hlt : eventCh.buf.length < eventCh.cap := by omega
    obtain ⟨s', hrun, hbuf, hheap', hpc', hbody', htaken'⟩ := ih
      { body := docs.map Read.doc ++ tail, bodyClosed := closed
        heap := [codec.unmarshal d e], ev := some 0, pc := PC.decode
        eventCh := { eventCh with buf := eventCh.buf ++ [some 0] }
        errCh := errCh, taken := taken, errs := errs }
      (codec.unmarshal d e) rfl rfl rfl rfl
      (by simp only [List.length_append, List.length_cons, List.length_nil]; omega)
    refine ⟨s', ?_, ?_, ?_, hpc', hbody', htaken'⟩
    · simpa [solo, run, step, produce, store, Chan.send, hlt] using hrun
    · simpa [List.replicate_succ, List.append_assoc] using hbuf
    · simpa using hheap'

/-- Before the write of an error, with the slot of capacity one held by an
undrained error and the body open, nothing but a receive on the slot changes
that: the stream cannot move, and receives on the queue leave it as it is. -/
theorem held_slot_blocks (codec : Codec D E) (err held : String) :
    ∀ (acts : List Action) (s s' : Stream D E), s.pc = PC.sendErr err →
      s.errCh.cap = 1 → s.errCh.buf = [held] → s.bodyClosed = false →
      (∀ a ∈ acts, a ≠ Action.recvErr) → s.run codec acts = some s' →
      s'.pc = PC.sendErr err ∧ s'.errCh.cap = 1 ∧ s'.errCh.buf = [held] ∧
        s'.bodyClosed = false ∧ s'.errs = s.errs := by
  intro acts
  induction acts with
  | nil =>
    intro s s' hpc hcap hbuf hopen _ hrun
    simp only [run, Option.some.injEq] at hrun
    subst hrun
    exact ⟨hpc, hcap, hbuf, hopen, rfl⟩
  | cons a rest ih =>
    intro s s' hpc hcap hbuf hopen hacts hrun
    have hrest : ∀ x ∈ rest, x ≠ Action.recvErr :=
      fun x hx => hacts x (List.mem_cons_of_mem a hx)
    cases a with
    | producer =>
      simp [run, step, produce, hpc, Chan.send, hcap, hbuf] at hrun
    | recvErr => exact absurd rfl (hacts Action.recvErr (List.mem_cons_self _ _))
    | recvEvent =>
      simp only [run, step, recvEvent, Chan.recv] at hrun
      cases hb : s.eventCh.buf with
      | nil => simp [hb] at hrun
      | cons p tl =>
        simp only [hb, Option.some_bind] at hrun
        exact ih { s with eventCh := { s.eventCh with buf := tl }, taken := s.taken ++ [p] }
          s' hpc hcap hbuf hopen hrest hrun

end Stream

/-- C8, as stated, fails: on a client whose error slot still holds an error, a
body of one document followed by a truncated one leaves the stream blocked before
the write: the new error is not written, the body is not closed and the stream
has not returned. -/
theorem watchEvents_blocked_before_error_write :
    ∃ s, (Client.watchEvents sampleCodec heldClient
        [Read.doc heartbeatDoc, Read.fail "unexpected EOF"]).run sampleCodec
        [Action.producer, Action.producer, Action.producer] = some s ∧
      s.pc = PC.sendErr "unexpected EOF" ∧ s.produce sampleCodec = none ∧
      s.errCh.buf = ["connection reset"] ∧ s.bodyClosed = false ∧
      (Client.watchEvents sampleCodec heldClient
        [Read.doc heartbeatDoc, Read.fail "unexpected EOF"]).run sampleCodec (alone 1) = none :=
  ⟨_, rfl, rfl, rfl, rfl, rfl, rfl⟩

/-- C8, amended. For a stream body whose first k reads are well-formed documents
and whose next read fails, on a client with an empty queue and an empty error
slot: along every schedule the stream completes at most k sends and writes at
most one error, the one of the failing read; once it has returned it has
completed exactly k sends, written exactly that one error, closed the body,
left the rest of the body unread, and no statement of it is left to run. It
does return: alone when k is within the queue capacity, and for every k with an
owner that takes the events. -/
theorem watchEvents_decode_failure {D E : Type} (codec : Codec D E) (c : Client)
    (pre : List (Read D)) (bad : Read D) (rest : List (Read D)) (err : String)
    (hpre : ∀ r ∈ pre, r.ok = true) (hbad : bad.err = some err)
    (hq : c.eventCh.buf = []) (he : c.errCh.buf = []) (hslot : 0 < c.errCh.cap) :
    (∀ acts s, (Client.watchEvents codec c (pre ++ bad :: rest)).run codec acts = some s →
      s.sent ≤ pre.length ∧
      (s.written = [] ∨ s.written = [err]) ∧
      (s.pc = PC.done →
        s.sent = pre.length ∧ s.written = [err] ∧ s.bodyClosed = true ∧ s.body = rest ∧
        s.produce codec = none)) ∧
    (pre.length ≤ c.eventCh.cap →
      ∃ s, (Client.watchEvents codec c (pre ++ bad :: rest)).run codec (alone pre.length) =
        some s ∧ s.pc = PC.done) ∧
    (0 < c.eventCh.cap →
      ∃ s, (Client.watchEvents codec c (pre ++ bad :: rest)).run codec (drained pre.length) =
        some s ∧ s.pc = PC.done) := by
  have hinit : Stream.FailureInv pre bad rest err
      (Client.watchEvents codec c (pre ++ bad :: rest)) := by
    simp [Stream.FailureInv, Client.watchEvents, Stream.sent, Stream.written, hq, he]
  refine ⟨?_, ?_, ?_⟩
  · intro acts s hrun
    have hinv := Stream.run_induction codec (Stream.FailureInv pre bad rest err)
      (Stream.FailureInv_step codec pre bad rest err hpre hbad) acts _ s hinit hrun
    unfold Stream.FailureInv at hinv
    cases hpc : s.pc with
    | decode =>
      rw [hpc] at hinv
      exact ⟨hinv.2.1, Or.inl hinv.2.2.1, fun h => by cases h⟩
    | sendEvent =>
      rw [hpc] at hinv
      exact ⟨Nat.le_of_lt hinv.2.1, Or.inl hinv.2.2.1, fun h => by cases h⟩
    | sendErr e =>
      rw [hpc] at hinv
      exact ⟨Nat.le_of_eq hinv.2.2.1, Or.inl hinv.2.2.2.1, fun h => by cases h⟩
    | closing =>
      rw [hpc] at hinv
      exact ⟨Nat.le_of_eq hinv.2.1, Or.inr hinv.2.2.1, fun h => by cases h⟩
    | done =>
      rw [hpc] at hinv
      refine ⟨Nat.le_of_eq hinv.2.1, Or.inr hinv.2.2.1, fun _ => ?_⟩
      exact ⟨hinv.2.1, hinv.2.2.1, hinv.2.2.2, hinv.1, by simp [Stream.produce, hpc]⟩
  · intro hcap
    exact Stream.alone_terminates codec bad rest err hbad pre _ rfl rfl hpre
      (by simpa [Client.watchEvents, hq] using hcap)
      (by simpa [Client.watchEvents, he] using hslot)
  · intro hcap
    exact Stream.drained_terminates codec bad rest err hbad pre _ rfl rfl hpre
      (by simpa [Client.watchEvents] using hq)
      (by simpa [Client.watchEvents] using hcap)
      (by simpa [Client.watchEvents, he] using hslot)

/-- C8 amended, at a body of two documents followed by a truncated one and by a
further document: alone, the stream returns with two entries queued, the one
error written, the body closed and the further document unread. -/
theorem watchEvents_decode_failure_witness :
    (∃ s, (Client.watchEvents sampleCodec sampleClient
        ([Read.doc subscribedDoc, Read.doc heartbeatDoc] ++
          Read.fail "unexpected EOF" :: [Read.doc offersDoc])).run sampleCodec (alone 2) =
        some s ∧ s.pc = PC.done) ∧
    (Client.watchEvents sampleCodec sampleClient
        ([Read.doc subscribedDoc, Read.doc heartbeatDoc] ++
          Read.fail "unexpected EOF" :: [Read.doc offersDoc])).run sampleCodec (alone 2) =
      some { body := [Read.doc offersDoc]
             bodyClosed := true
             heap := [{ Type_ := some Event_Type.HEARTBEAT, Subscribed := some "fw-1" }]
             ev := some 0
             pc := PC.done
             eventCh := { cap := 1024, buf := [some 0, some 0] }
             errCh := { cap := 1, buf := ["unexpected EOF"] }
             taken := []
             errs := [] } :=
  ⟨(watchEvents_decode_failure sampleCodec sampleClient
      [Read.doc subscribedDoc, Read.doc heartbeatDoc] (Read.fail "unexpected EOF")
      [Read.doc offersDoc] "unexpected EOF" (by decide) rfl rfl rfl (by decide)).2.1
      (by decide),
    by decide⟩

/-- C9, as stated, fails: a stream that meets a failing read while the error slot
holds the error `connection reset` blocks on the write, with its body open; and
once the owner has taken the held error the later error is written, not
discarded. -/
theorem errCh_write_blocks_on_held_error :
    (Client.watchEvents sampleCodec heldClient [Read.fail "unexpected EOF"]).run sampleCodec
      [Action.producer] = some heldStream ∧
    heldStream.produce sampleCodec = none ∧
    heldStream.bodyClosed = false ∧
    (heldStream.run sampleCodec [Action.recvErr, Action.producer]).map
      (fun s => (s.errs, s.errCh.buf)) = some (["connection reset"], ["unexpected EOF"]) :=
  ⟨rfl, rfl, rfl, rfl⟩

/-- C9, amended. The error signal is a buffered channel of one slot, written with
a blocking send. When a stream stands before the write of a decode error while
the slot holds an undrained error, the write is blocked and stays blocked
whatever else happens, until the owner receives from the slot: the held error is
unchanged, the later error is not discarded, the body stays open and the stream
has not returned. Once the owner takes the held error, the write completes: the
slot holds the later error; the stream then closes the body and has returned. -/
theorem errCh_write_waits_for_drain {D E : Type} (codec : Codec D E) (s : Stream D E)
    (err held : String) (hpc : s.pc = PC.sendErr err)
    (hcap : s.errCh.cap = 1) (hbuf : s.errCh.buf = [held]) (hopen : s.bodyClosed = false) :
    (∀ acts s', (∀ a ∈ acts, a ≠ Action.recvErr) → s.run codec acts = some s' →
      s'.produce codec = none ∧ s'.errCh.buf = [held] ∧ s'.bodyClosed = false ∧
      s'.pc = PC.sendErr err) ∧
    (∃ s1, s.recvErr = some s1 ∧ s1.errs = s.errs ++ [held] ∧ s1.errCh.buf = [] ∧
      ∃ s2, s1.produce codec = some s2 ∧ s2.errCh.buf = [err] ∧ s2.errs = s.errs ++ [held] ∧
        ∃ s3, s2.produce codec = some s3 ∧ s3.errCh.buf = [err] ∧
          s3.errs = s.errs ++ [held] ∧ s3.bodyClosed = true ∧ s3.pc = PC.done ∧
          s3.produce codec = none) := by
  refine ⟨?_, ?_⟩
  · intro acts s' hacts hrun
    obtain ⟨hpc', hcap', hbuf', hopen', _⟩ :=
      Stream.held_slot_blocks codec err held acts s s' hpc hcap hbuf hopen hacts hrun
    exact ⟨by simp [Stream.produce, hpc', Chan.send, hcap', hbuf'], hbuf', hopen', hpc'⟩
  · refine ⟨{ s with errCh := { s.errCh with buf := [] }, errs := s.errs ++ [held] },
      by simp [Stream.recvErr, Chan.recv, hbuf], rfl, rfl, ?_⟩
    refine ⟨_, Stream.produce_sendErr codec
        { s with errCh := { s.errCh with buf := [] }, errs := s.errs ++ [held] } err hpc
        (by simp [hcap]), rfl, rfl, ?_⟩
    exact ⟨_, Stream.produce_closing codec _ rfl, rfl, rfl, rfl, rfl,
      by simp [Stream.produce]⟩

/-- C9 amended, at the stream of `heldClient` that met `unexpected EOF`. -/
theorem errCh_write_waits_for_drain_witness :
    heldStream.produce sampleCodec = none ∧
    (heldStream.run sampleCodec [Action.recvErr, Action.producer, Action.producer]).map
      (fun s => (s.errCh.buf, s.bodyClosed, s.pc)) =
      some (["unexpected EOF"], true, PC.done) :=
  ⟨((errCh_write_waits_for_drain sampleCodec heldStream "unexpected EOF" "connection reset"
      rfl rfl rfl rfl).1 [] heldStream (by simp) rfl).1, by decide⟩

/-- C1, at the body
`{"type":"SUBSCRIBED","subscribed":{"framework_id":{"value":"fw-1"}}}{"type":"HEARTBEAT"}`
with an owner that is not yet reading: two entries are queued, both are the
pointer to the one event object, and the first event the owner takes shows the
kind HEARTBEAT of the second document, not the event of the first document. -/
theorem watchEvents_first_event_overwritten :
    ∃ s, (Client.watchEvents sampleCodec sampleClient
        [Read.doc subscribedDoc, Read.doc heartbeatDoc]).run sampleCodec
        [Action.producer, Action.producer, Action.producer, Action.producer] = some s ∧
      s.eventCh.buf = [some 0, some 0] ∧
      ∃ t, s.recvEvent = some t ∧ t.taken = [some 0] ∧
        t.deref (some 0) =
          some { Type_ := some Event_Type.HEARTBEAT, Subscribed := some "fw-1" } ∧
        t.deref (some 0) ≠ some (sampleCodec.eventOf subscribedDoc) :=
  ⟨_, rfl, rfl, _, rfl, rfl, rfl, by decide⟩

/-- C10, at a body of the three documents SUBSCRIBED, HEARTBEAT, OFFERS, the owner
taking the first event before the other two are decoded: the queue stays within
1024, but the event taken followed by the two queued show the third document
three times, not the three documents in wire order. -/
theorem watchEvents_view_not_documents :
    ∃ s, (Client.watchEvents sampleCodec sampleClient
        [Read.doc subscribedDoc, Read.doc heartbeatDoc, Read.doc offersDoc]).run sampleCodec
        [Action.producer, Action.producer, Action.recvEvent, Action.producer, Action.producer,
          Action.producer, Action.producer] = some s ∧
      s.taken = [some 0] ∧ s.eventCh.buf = [some 0, some 0] ∧
      s.eventCh.buf.length ≤ 1024 ∧
      s.view = List.replicate 3
        (some { Type_ := some Event_Type.OFFERS, Subscribed := some "fw-1" }) ∧
      s.view ≠ [subscribedDoc, heartbeatDoc, offersDoc].map
        (fun d => some (sampleCodec.eventOf d)) :=
  ⟨_, rfl, rfl, rfl, by decide, rfl, by decide⟩

end Mesos
